import Mathlib

/-!
Shallow embedding of the data-access layer in `dataaccess/dataaccess.go`
of the pill skills-directory application.

The MongoDB store is modelled as an explicit state (`Store`): the
`profiles` and `skills` collections are association lists keyed by their
`_id` (email address resp. original tag text), and the singleton
`configuration` document is an `Option`.  Each Go method is a Lean
function from the store (plus injected storage-fault parameters) to the
new store and the method's Go return values.  A storage call (`Dial`,
`FindId...One`, `UpsertId`, `RemoveId`, `Insert`, `Find...All`) either
behaves according to the store state or fails with an injected
`StoreErr`; passing `none` for every fault parameter models a run in
which the storage layer does not fail.

Times are Unix seconds (`Nat`): the Go code truncates to whole seconds
via `time.Unix(time.Now().Unix(), 0)`, so the update timestamp enters the
model as a single `Nat` parameter `now`.
-/

/-- Errors returned by the storage layer. `errNotFound` models
`mgo.ErrNotFound`; `errOther n` models any other error value
(connection failure, write rejection, duplicate key, ...). -/
inductive StoreErr where
  | errNotFound
  | errOther (code : Nat)
deriving DecidableEq, Repr

/-- One element of `Profile.Skills`.  Modelled from the spec: the `Skill`
struct itself is not part of the data-access source file; the spec
describes `Skills` as an ordered sequence of (skill name, level) pairs,
so each element is a plain value pair. -/
structure Skill where
  skill : String
  level : Nat
deriving DecidableEq, Repr

/-- An entry of `Profile.SkillsHistory`: the Go `SkillLevel` struct with
fields `Date` and `Skills` (see `UpdateProfile`'s history rollover). -/
structure SkillLevel where
  date : Nat
  skills : List Skill
deriving DecidableEq, Repr

/-- The Go `Profile` document.  Field shapes follow the spec's data
model section (the struct declaration itself is outside the
data-access source file): email address key, derived domain, skills,
opaque availability, append-only history, version counter, and the
last-updated timestamp in whole seconds. -/
structure Profile where
  emailAddress : String
  domain : String
  skills : List Skill
  availability : Nat
  skillsHistory : List SkillLevel
  version : Nat
  lastUpdated : Nat
deriving DecidableEq, Repr

/-- Modelled from the spec: `NewProfile()` is not in the data-access
source file; per the spec an absent key yields "a fresh, empty profile"
whose `Version` is 0 (so the first save yields `Version = 1`) and whose
`SkillsHistory` is empty. -/
def NewProfile : Profile :=
  { emailAddress := ""
    domain := ""
    skills := []
    availability := 0
    skillsHistory := []
    version := 0
    lastUpdated := 0 }

/-- The caller-supplied update: fields `EmailAddress`, `Skills`,
`Availability` (the struct declaration is outside the data-access
source file; the field set is the one `UpdateProfile` reads). -/
structure ProfileUpdate where
  emailAddress : String
  skills : List Skill
  availability : Nat
deriving DecidableEq, Repr

/-- The Go `SkillTag` document: a single `Name` field (constructed as
`SkillTag{CleanTag(tag)}` in `AddSkillTags`). -/
structure SkillTag where
  name : String
deriving DecidableEq, Repr

/-- Modelled from the spec: the `Configuration` struct is not in the
data-access source file; the spec says it holds a session-encryption
key generated at creation.  The key is a byte string, `none` when not
yet set (`NewConfiguration(nil)`). -/
structure Configuration where
  sessionEncryptionKey : Option (List Nat)
deriving DecidableEq, Repr

/-- Modelled from the spec: `NewConfiguration(key)` builds a
configuration carrying the given session-encryption key. -/
def NewConfiguration (key : Option (List Nat)) : Configuration :=
  { sessionEncryptionKey := key }

/-- The MongoDB database state: the `profiles` and `skills` collections
as association lists keyed by `_id`, and the singleton `configuration`
document. -/
structure Store where
  profiles : List (String × Profile)
  skills : List (String × SkillTag)
  configuration : Option Configuration
deriving DecidableEq, Repr

/-- Key lookup in a collection (the read half of `FindId`). -/
def findKey {A : Type} : List (String × A) → String → Option A
  | [], _ => none
  | (k, v) :: rest, key => if k = key then some v else findKey rest key

/-- `UpsertId(key, v)`: replace the document at `key`, or insert it if
absent. -/
def upsertId {A : Type} : List (String × A) → String → A → List (String × A)
  | [], key, v => [(key, v)]
  | (k, w) :: rest, key, v =>
      if k = key then (key, v) :: rest else (k, w) :: upsertId rest key v

/-- `RemoveId(key)`: remove the document at `key`; if the key is absent
the storage layer signals `mgo.ErrNotFound`. -/
def removeId {A : Type} : List (String × A) → String → List (String × A) × Option StoreErr
  | [], _ => ([], some StoreErr.errNotFound)
  | (k, w) :: rest, key =>
      if k = key then (rest, none)
      else
        let r := removeId rest key
        ((k, w) :: r.1, r.2)

/-- Go's `strings.ToLower`, modelled character-wise with Lean's
`Char.toLower` (basic latin letters, as in the ASCII range Go shares). -/
def goToLower (s : String) : String :=
  ⟨s.data.map Char.toLower⟩

/-- Go's `strings.Replace(s, " ", "-", -1)`: the pattern and the
replacement are single characters, so replacing every occurrence is a
character-wise map. -/
def goReplaceSpaceHyphen (s : String) : String :=
  ⟨s.data.map (fun c => if c = ' ' then '-' else c)⟩

/-- `CleanTag` from the source: lowercase the tag, then replace every
space with a hyphen. -/
def CleanTag (tag : String) : String :=
  goReplaceSpaceHyphen (goToLower tag)

/-- Go's `strings.Split` for a single-character separator: split the
character list at every occurrence of `sep` (adjacent separators and
boundary separators yield empty pieces, as in Go). -/
def splitAtChar (sep : Char) : List Char → List (List Char)
  | [] => [[]]
  | c :: cs =>
    if c = sep then [] :: splitAtChar sep cs
    else
      match splitAtChar sep cs with
      | [] => [[c]]
      | g :: gs => (c :: g) :: gs

/-- `getDomain` from the source: lowercase the part of the address after
the `@`.  Go indexes `strings.Split(emailAddress, "@")[1]`, which
panics when the address has no `@`; the model returns `""` on that
out-of-range access (no claim exercises a malformed address). -/
def getDomain (emailAddress : String) : String :=
  goToLower ⟨((splitAtChar '@' emailAddress.data).get? 1).getD []⟩

/-- `GetProfile` from the source.  `dialF` injects a failure of
`mgo.Dial`, `findF` a failure of `FindId(...).One(result)`.  The
translation is line-by-line: a dial failure returns `(nil, false, err)`;
otherwise a fresh profile with the email address filled in is the
decode target; `One` either fails (injected) or reads the store; the Go
code then checks only for `mgo.ErrNotFound` (returning the fresh
profile with `found = false` and a nil error) and otherwise returns
`(result, true, nil)` — note that this last line also swallows any
`One` failure other than not-found. -/
def GetProfile (s : Store) (dialF findF : Option StoreErr) (emailAddress : String) :
    Option Profile × Bool × Option StoreErr :=
  match dialF with
  | some e => (none, false, some e)
  | none =>
    let result0 : Profile := { NewProfile with emailAddress := emailAddress }
    let fr : Profile × Option StoreErr :=
      match findF with
      | some e => (result0, some e)
      | none =>
        match findKey s.profiles emailAddress with
        | some p => (p, none)
        | none => (result0, some StoreErr.errNotFound)
    if fr.2 = some StoreErr.errNotFound then (some fr.1, false, none)
    else (some fr.1, true, none)

/-- The Go loop `for _, skill := range update.Skills { skill.Skill =
strings.ToLower(skill.Skill) }`: `range` hands each element to the loop
variable `skill` by value, so the assignment mutates only the
per-iteration copy and the slice itself is left unchanged.  The model
computes the lowered copies and, like the Go loop, discards them. -/
def lowerSkillsRangeLoop (skills : List Skill) : List Skill :=
  let _copies := skills.map (fun sk => { sk with skill := goToLower sk.skill })
  skills

/-- `UpdateProfile` from the source.  Faults: `dialF` for the method's
own `mgo.Dial`, `getDialF`/`getFindF` for the nested `GetProfile`
call's dial and find, `upsertF` for the final `UpsertId`.  `now` is the
current time in whole seconds (`time.Unix(time.Now().Unix(), 0)`).
Returns (new store, returned profile pointer, error). -/
def UpdateProfile (s : Store) (dialF getDialF getFindF upsertF : Option StoreErr)
    (now : Nat) (update : ProfileUpdate) : Store × Option Profile × Option StoreErr :=
  match dialF with
  | some e => (s, none, some e)
  | none =>
    match GetProfile s getDialF getFindF update.emailAddress with
    | (_, _, some e) => (s, none, some e)
    | (none, _, none) =>
      -- Unreachable: GetProfile returns a nil profile only together with a
      -- non-nil (dial) error; the Go code would dereference nil here.
      (s, none, some StoreErr.errNotFound)
    | (some profile0, _found, none) =>
      let profile1 :=
        if profile0.skills.length > 0 then
          { profile0 with
              skillsHistory :=
                profile0.skillsHistory ++
                  [{ date := profile0.lastUpdated, skills := profile0.skills }] }
        else profile0
      let _ := lowerSkillsRangeLoop update.skills
      let profile2 :=
        { profile1 with
            skills := update.skills
            availability := update.availability
            version := profile1.version + 1
            lastUpdated := now
            domain := getDomain update.emailAddress }
      match upsertF with
      | some e => (s, none, some e)
      | none =>
        ({ s with profiles := upsertId s.profiles profile2.emailAddress profile2 },
          some profile2, none)

/-- `DeleteProfile` from the source: dial, then `RemoveId`; any non-nil
error (including the not-found signalled by `RemoveId` on an absent
key) is returned as `(false, err)`, a nil error as `(true, nil)`.
`removeF` injects a failure of the `RemoveId` call itself. -/
def DeleteProfile (s : Store) (dialF removeF : Option StoreErr) (emailAddress : String) :
    Store × Bool × Option StoreErr :=
  match dialF with
  | some e => (s, false, some e)
  | none =>
    match removeF with
    | some e => (s, false, some e)
    | none =>
      let r := removeId s.profiles emailAddress
      match r.2 with
      | some e => ({ s with profiles := r.1 }, false, some e)
      | none => ({ s with profiles := r.1 }, true, none)

/-- `ListSkillTags` from the source: dial, `Find(nil).All(&results)`,
then collect each `SkillTag.Name`.  A dial failure returns
`(nil, err)`; a failure of the query is logged and the function
returns `(nil, nil)` — the error is not propagated. -/
def ListSkillTags (s : Store) (dialF findF : Option StoreErr) :
    Option (List String) × Option StoreErr :=
  match dialF with
  | some e => (none, some e)
  | none =>
    match findF with
    | some _e => (none, none)
    | none => (some (s.skills.map (fun kv => kv.2.name)), none)

/-- The loop of `AddSkillTags`: for each tag, in order,
`UpsertId(tag, SkillTag{CleanTag(tag)})` — keyed by the original tag
text, storing the normalized form; the first failing upsert aborts the
loop and returns its error.  `upsertF i` injects a failure of the
`i`-th upsert. -/
def addSkillTagsLoop (coll : List (String × SkillTag))
    (upsertF : Nat → Option StoreErr) (i : Nat) :
    List String → List (String × SkillTag) × Option StoreErr
  | [] => (coll, none)
  | t :: ts =>
    match upsertF i with
    | some e => (coll, some e)
    | none => addSkillTagsLoop (upsertId coll t { name := CleanTag t }) upsertF (i + 1) ts

/-- `AddSkillTags` from the source: dial, then the upsert loop over the
`skills` collection. -/
def AddSkillTags (s : Store) (dialF : Option StoreErr)
    (upsertF : Nat → Option StoreErr) (tags : List String) : Store × Option StoreErr :=
  match dialF with
  | some e => (s, some e)
  | none =>
    let r := addSkillTagsLoop s.skills upsertF 0 tags
    ({ s with skills := r.1 }, r.2)

/-- `getConfiguration` from the source: dial (failure returns the zero
`Configuration{}` and the error), then decode the singleton document
into `NewConfiguration(nil)` via `FindId("configuration").One`; the
find's error — `mgo.ErrNotFound` when the document is absent, or an
injected failure — is returned alongside the (then unmodified) decode
target. -/
def getConfiguration (s : Store) (dialF findF : Option StoreErr) :
    Configuration × Option StoreErr :=
  match dialF with
  | some e => ({ sessionEncryptionKey := none }, some e)
  | none =>
    let configuration := NewConfiguration none
    match findF with
    | some e => (configuration, some e)
    | none =>
      match s.configuration with
      | some c => (c, none)
      | none => (configuration, some StoreErr.errNotFound)

/-- `attemptToCreateConfiguration` from the source: dial, then `Insert`
a configuration built from a freshly generated session-encryption key.
`createSessionEncryptionKey()` is not in the data-access source file;
modelled from the spec as the externally supplied fresh key `genKey`.
Inserting when the fixed-key document already exists fails with a
duplicate-key error. -/
def attemptToCreateConfiguration (s : Store) (dialF insertF : Option StoreErr)
    (genKey : List Nat) : Store × Option StoreErr :=
  match dialF with
  | some e => (s, some e)
  | none =>
    let configuration := NewConfiguration (some genKey)
    match insertF with
    | some e => (s, some e)
    | none =>
      match s.configuration with
      | some _ => (s, some (StoreErr.errOther 11000))
      | none => ({ s with configuration := some configuration }, none)

/-- `GetOrCreateConfiguration` from the source: fetch; if and only if
the fetch failed with `mgo.ErrNotFound`, attempt to create (the
attempt's return value — its error included — is discarded) and return
the result of a second fetch.  Fault parameters: first fetch's dial and
find, the creation attempt's dial and insert, second fetch's dial and
find. -/
def GetOrCreateConfiguration (s : Store) (d1 f1 dc ic d2 f2 : Option StoreErr)
    (genKey : List Nat) : Store × Configuration × Option StoreErr :=
  let r := getConfiguration s d1 f1
  if r.2 = some StoreErr.errNotFound then
    let a := attemptToCreateConfiguration s dc ic genKey
    let r2 := getConfiguration a.1 d2 f2
    (a.1, r2.1, r2.2)
  else (s, r.1, r.2)

theorem char_toLower_fix (n : Nat) (h1 : 65 ≤ n) (h2 : n ≤ 90) :
    (Char.ofNat (n + 32)).toLower = Char.ofNat (n + 32) := by
  interval_cases n <;> decide

theorem char_toLower_idem (c : Char) : c.toLower.toLower = c.toLower := by
  by_cases h : 65 ≤ c.toNat ∧ c.toNat ≤ 90
  · have e : c.toLower = Char.ofNat (c.toNat + 32) := by
      unfold Char.toLower
      rw [if_pos]
      exact ⟨h.1, h.2⟩
    rw [e]
    exact char_toLower_fix c.toNat h.1 h.2
  · have e : c.toLower = c := by
      unfold Char.toLower
      rw [if_neg]
      exact h
    rw [e, e]

theorem char_clean_idem (c : Char) :
    (if c.toLower.toLower = ' ' then '-' else c.toLower.toLower) =
      (if c.toLower = ' ' then '-' else c.toLower) := by
  rw [char_toLower_idem]

/-- C9: CleanTag is lowercase-then-hyphenate, total by construction,
maps "Go Lang" to "go-lang", and is idempotent on every string. -/
theorem CleanTag_lower_hyphen_idempotent :
    (∀ s : String, CleanTag s = goReplaceSpaceHyphen (goToLower s)) ∧
    CleanTag "Go Lang" = "go-lang" ∧
    (∀ s : String, CleanTag (CleanTag s) = CleanTag s) := by
  refine ⟨fun s => rfl, by decide, fun s => ?_⟩
  show CleanTag (CleanTag s) = CleanTag s
  unfold CleanTag goReplaceSpaceHyphen goToLower
  apply congrArg String.mk
  simp only [List.map_map]
  apply List.map_congr_left
  intro c _
  show (if (if c.toLower = ' ' then '-' else c.toLower).toLower = ' ' then '-'
        else (if c.toLower = ' ' then '-' else c.toLower).toLower) =
      (if c.toLower = ' ' then '-' else c.toLower)
  by_cases hsp : c.toLower = ' '
  · rw [hsp]
    decide
  · rw [if_neg hsp, char_toLower_idem, if_neg hsp]

/-- Post-state of a profile as computed by `UpdateProfile` from the
pre-update profile `pre`: history rollover when `pre.skills` is
non-empty, then field replacement, version bump, timestamp, domain. -/
def postProfile (pre : Profile) (now : Nat) (u : ProfileUpdate) : Profile :=
  let profile1 :=
    if pre.skills.length > 0 then
      { pre with
          skillsHistory :=
            pre.skillsHistory ++ [{ date := pre.lastUpdated, skills := pre.skills }] }
    else pre
  { profile1 with
      skills := u.skills
      availability := u.availability
      version := profile1.version + 1
      lastUpdated := now
      domain := getDomain u.emailAddress }

theorem postProfile_skillsHistory (pre : Profile) (now : Nat) (u : ProfileUpdate) :
    (postProfile pre now u).skillsHistory =
      if pre.skills.length > 0 then
        pre.skillsHistory ++ [{ date := pre.lastUpdated, skills := pre.skills }]
      else pre.skillsHistory := by
  unfold postProfile
  split <;> rfl

theorem postProfile_version (pre : Profile) (now : Nat) (u : ProfileUpdate) :
    (postProfile pre now u).version = pre.version + 1 := by
  unfold postProfile
  split <;> rfl

theorem postProfile_emailAddress (pre : Profile) (now : Nat) (u : ProfileUpdate) :
    (postProfile pre now u).emailAddress = pre.emailAddress := by
  unfold postProfile
  split <;> rfl

theorem GetProfile_found (s : Store) (email : String) (p : Profile)
    (hp : findKey s.profiles email = some p) :
    GetProfile s none none email = (some p, true, none) := by
  simp [GetProfile, hp]

theorem GetProfile_absent_eval (s : Store) (email : String)
    (hp : findKey s.profiles email = none) :
    GetProfile s none none email =
      (some { NewProfile with emailAddress := email }, false, none) := by
  simp [GetProfile, hp]

theorem UpdateProfile_found_eval (s : Store) (now : Nat) (u : ProfileUpdate) (p : Profile)
    (hp : findKey s.profiles u.emailAddress = some p) :
    UpdateProfile s none none none none now u =
      ({ s with
           profiles :=
             upsertId s.profiles (postProfile p now u).emailAddress (postProfile p now u) },
        some (postProfile p now u), none) := by
  unfold UpdateProfile
  rw [GetProfile_found s u.emailAddress p hp]
  rfl

theorem UpdateProfile_absent_eval (s : Store) (now : Nat) (u : ProfileUpdate)
    (hp : findKey s.profiles u.emailAddress = none) :
    UpdateProfile s none none none none now u =
      ({ s with
           profiles :=
             upsertId s.profiles
               (postProfile { NewProfile with emailAddress := u.emailAddress } now u).emailAddress
               (postProfile { NewProfile with emailAddress := u.emailAddress } now u) },
        some (postProfile { NewProfile with emailAddress := u.emailAddress } now u), none) := by
  unfold UpdateProfile
  rw [GetProfile_absent_eval s u.emailAddress hp]
  rfl

theorem findKey_upsertId_self {A : Type} (coll : List (String × A)) (k : String) (v : A) :
    findKey (upsertId coll k v) k = some v := by
  induction coll with
  | nil => simp [upsertId, findKey]
  | cons kv rest ih =>
    obtain ⟨k', w⟩ := kv
    by_cases hk : k' = k
    · simp [upsertId, hk, findKey]
    · simp [upsertId, hk, findKey, ih]

theorem removeId_absent {A : Type} (coll : List (String × A)) (k : String)
    (h : findKey coll k = none) :
    removeId coll k = (coll, some StoreErr.errNotFound) := by
  induction coll with
  | nil => rfl
  | cons kv rest ih =>
    obtain ⟨k', w⟩ := kv
    by_cases hk : k' = k
    · rw [findKey, if_pos hk] at h
      exact absurd h (by simp)
    · rw [findKey, if_neg hk] at h
      simp [removeId, hk, ih h]

/-- An empty database. -/
def emptyStore : Store :=
  { profiles := [], skills := [], configuration := none }

/-- A profile used as concrete test data. -/
def bobProfile : Profile :=
  { emailAddress := "bob@x.com"
    domain := "x.com"
    skills := [{ skill := "go", level := 3 }]
    availability := 1
    skillsHistory := []
    version := 1
    lastUpdated := 50 }

/-- A database holding one profile and one skill tag. -/
def demoStore : Store :=
  { profiles := [("bob@x.com", bobProfile)]
    skills := [("Go Lang", { name := "go-lang" })]
    configuration := none }

/-- C1: for an existing profile with non-empty skills, a fault-free
UpdateProfile appends exactly one entry to SkillsHistory, namely the
pre-update (LastUpdated, Skills) pair; with empty existing skills
(including the brand-new-profile case) SkillsHistory is unchanged. -/
theorem UpdateProfile_appends_history (s : Store) (now : Nat) (u : ProfileUpdate) (q : Profile)
    (hq : (UpdateProfile s none none none none now u).2.1 = some q) :
    (∀ p, findKey s.profiles u.emailAddress = some p →
        (p.skills ≠ [] →
          q.skillsHistory =
            p.skillsHistory ++ [{ date := p.lastUpdated, skills := p.skills }]) ∧
        (p.skills = [] → q.skillsHistory = p.skillsHistory)) ∧
    (findKey s.profiles u.emailAddress = none → q.skillsHistory = []) := by
  constructor
  · intro p hp
    rw [UpdateProfile_found_eval s now u p hp] at hq
    obtain rfl : postProfile p now u = q := Option.some.inj hq
    constructor
    · intro hne
      rw [postProfile_skillsHistory, if_pos (by simpa [List.length_pos] using hne)]
    · intro he
      rw [postProfile_skillsHistory, if_neg (by simp [he])]
  · intro hp
    rw [UpdateProfile_absent_eval s now u hp] at hq
    obtain rfl : postProfile { NewProfile with emailAddress := u.emailAddress } now u = q :=
      Option.some.inj hq
    rw [postProfile_skillsHistory, if_neg (by simp [NewProfile])]
    rfl

/-- An update used as concrete test data for the history claim. -/
def demoUpdate : ProfileUpdate :=
  { emailAddress := "bob@x.com", skills := [{ skill := "rust", level := 4 }], availability := 2 }

/-- The profile produced by applying demoUpdate to demoStore at time 100. -/
def demoResult : Profile :=
  { emailAddress := "bob@x.com"
    domain := "x.com"
    skills := [{ skill := "rust", level := 4 }]
    availability := 2
    skillsHistory := [{ date := 50, skills := [{ skill := "go", level := 3 }] }]
    version := 2
    lastUpdated := 100 }

theorem UpdateProfile_appends_history_witness :
    (UpdateProfile demoStore none none none none 100 demoUpdate).2.1 = some demoResult ∧
    demoResult.skillsHistory =
      bobProfile.skillsHistory ++
        [{ date := bobProfile.lastUpdated, skills := bobProfile.skills }] := by
  refine ⟨by decide, ?_⟩
  exact ((UpdateProfile_appends_history demoStore 100 demoUpdate demoResult
    (by decide)).1 bobProfile (by decide)).1 (by decide)

/-- C2: a fault-free UpdateProfile returns (and stores under the
returned profile's email address) a profile whose version is the
pre-update version plus one; on an absent email the result has version
1 and empty history. -/
theorem UpdateProfile_increments_version (s : Store) (now : Nat) (u : ProfileUpdate)
    (q : Profile) (hq : (UpdateProfile s none none none none now u).2.1 = some q) :
    q.version = (match findKey s.profiles u.emailAddress with
                 | some p => p.version
                 | none => NewProfile.version) + 1 ∧
    findKey (UpdateProfile s none none none none now u).1.profiles q.emailAddress = some q ∧
    (findKey s.profiles u.emailAddress = none →
      q.version = 1 ∧ q.skillsHistory = []) := by
  cases hp : findKey s.profiles u.emailAddress with
  | some p =>
    rw [UpdateProfile_found_eval s now u p hp] at hq ⊢
    obtain rfl : postProfile p now u = q := Option.some.inj hq
    refine ⟨postProfile_version p now u, ?_, by simp [hp]⟩
    exact findKey_upsertId_self s.profiles (postProfile p now u).emailAddress (postProfile p now u)
  | none =>
    rw [UpdateProfile_absent_eval s now u hp] at hq ⊢
    obtain rfl : postProfile { NewProfile with emailAddress := u.emailAddress } now u = q :=
      Option.some.inj hq
    refine ⟨postProfile_version _ now u, ?_, ?_⟩
    · exact findKey_upsertId_self s.profiles _ _
    · intro _
      constructor
      · rw [postProfile_version]
        rfl
      · rw [postProfile_skillsHistory, if_neg (by simp [NewProfile])]
        rfl

/-- An update to an email address absent from demoStore. -/
def c2Update : ProfileUpdate :=
  { emailAddress := "ann@y.com", skills := [{ skill := "go", level := 2 }], availability := 3 }

/-- The profile produced by applying c2Update to demoStore at time 200. -/
def c2Result : Profile :=
  { emailAddress := "ann@y.com"
    domain := "y.com"
    skills := [{ skill := "go", level := 2 }]
    availability := 3
    skillsHistory := []
    version := 1
    lastUpdated := 200 }

theorem UpdateProfile_increments_version_witness :
    c2Result.version = (match findKey demoStore.profiles c2Update.emailAddress with
                        | some p => p.version
                        | none => NewProfile.version) + 1 ∧
    findKey (UpdateProfile demoStore none none none none 200 c2Update).1.profiles
      c2Result.emailAddress = some c2Result ∧
    (c2Result.version = 1 ∧ c2Result.skillsHistory = []) := by
  have h := UpdateProfile_increments_version demoStore 200 c2Update c2Result (by decide)
  exact ⟨h.1, h.2.1, h.2.2 (by decide)⟩

/-- C10: when the key is absent and storage does not fail, GetProfile
returns a non-nil profile (found = false, nil error) whose email
address is the argument and whose other fields are the new-profile
defaults. -/
theorem GetProfile_absent_fresh (s : Store) (email : String)
    (h : findKey s.profiles email = none) :
    GetProfile s none none email =
      (some { NewProfile with emailAddress := email }, false, none) ∧
    ({ NewProfile with emailAddress := email } : Profile).emailAddress = email := by
  exact ⟨by simp [GetProfile, h], rfl⟩

theorem GetProfile_absent_fresh_witness :
    GetProfile demoStore none none "ann@y.com" =
      (some { NewProfile with emailAddress := "ann@y.com" }, false, none) ∧
    ({ NewProfile with emailAddress := "ann@y.com" } : Profile).emailAddress = "ann@y.com" :=
  GetProfile_absent_fresh demoStore "ann@y.com" (by decide)

/-- C3 (code bug): a fetch failure other than not-found after a
successful dial is swallowed by GetProfile — even with a profile
stored under the key, an injected fetch failure makes GetProfile
report found = true with a nil error and the fresh decode-target
profile, instead of surfacing the error. -/
theorem GetProfile_swallows_fetch_error :
    findKey demoStore.profiles "bob@x.com" = some bobProfile ∧
    GetProfile demoStore none (some (StoreErr.errOther 7)) "bob@x.com"
      = (some { NewProfile with emailAddress := "bob@x.com" }, true, none) := by
  decide

/-- The update exhibiting the lowercase slip: an uppercase skill name. -/
def c4Update : ProfileUpdate :=
  { emailAddress := "bob@x.com", skills := [{ skill := "Go", level := 3 }], availability := 1 }

/-- C4 (code bug): the skill names stored and returned by UpdateProfile
are NOT lowercased — the Go range loop assigns to the per-iteration
copy, so the skill name "Go" is persisted verbatim although its
lowercase form is "go". -/
theorem UpdateProfile_skills_not_lowercased :
    ((UpdateProfile emptyStore none none none none 100 c4Update).2.1).map Profile.skills
      = some [{ skill := "Go", level := 3 }] ∧
    (findKey (UpdateProfile emptyStore none none none none 100 c4Update).1.profiles
        "bob@x.com").map Profile.skills = some [{ skill := "Go", level := 3 }] ∧
    goToLower "Go" = "go" := by
  decide

/-- C8 (code bug): ListSkillTags converts a failure of the tag query
into a nil-error result — with tags present in the store and an
injected query failure, it returns (nil, nil) instead of a non-nil
error. -/
theorem ListSkillTags_swallows_query_error :
    findKey demoStore.skills "Go Lang" = some { name := "go-lang" } ∧
    ListSkillTags demoStore none (some (StoreErr.errOther 9)) = (none, none) := by
  decide

/-- C7 counterexample: DeleteProfile on a key absent from storage
returns a non-nil error (the not-found error), contradicting the claim
that the error is nil for every absent email address. -/
theorem DeleteProfile_absent_error_not_nil :
    findKey emptyStore.profiles "ghost@x.com" = none ∧
    (DeleteProfile emptyStore none none "ghost@x.com").2.2 ≠ none := by
  decide

/-- C7 amended: DeleteProfile on an absent key (with no storage fault)
leaves the store unchanged and returns found = false together with the
not-found error — the not-found outcome is reported through a non-nil
error, not by a nil-error boolean result. -/
theorem DeleteProfile_absent_returns_notFound (s : Store) (email : String)
    (h : findKey s.profiles email = none) :
    DeleteProfile s none none email = (s, false, some StoreErr.errNotFound) := by
  simp [DeleteProfile, removeId_absent s.profiles email h]

theorem DeleteProfile_absent_returns_notFound_witness :
    DeleteProfile demoStore none none "ghost@x.com"
      = (demoStore, false, some StoreErr.errNotFound) :=
  DeleteProfile_absent_returns_notFound demoStore "ghost@x.com" (by decide)

theorem addSkillTagsLoop_ok (upsertF : Nat → Option StoreErr) :
    ∀ (ts : List String) (coll : List (String × SkillTag)) (i : Nat),
      (∀ k, k < ts.length → upsertF (i + k) = none) →
      addSkillTagsLoop coll upsertF i ts =
        (ts.foldl (fun c t => upsertId c t { name := CleanTag t }) coll, none) := by
  intro ts
  induction ts with
  | nil => intro coll i _; rfl
  | cons t ts ih =>
    intro coll i h
    have h0 : upsertF i = none := by simpa using h 0 (by simp)
    rw [addSkillTagsLoop, h0]
    simp only [List.foldl]
    refine ih _ (i + 1) (fun k hk => ?_)
    have e : i + (k + 1) = i + 1 + k := by omega
    have := h (k + 1) (by simpa using Nat.succ_lt_succ hk)
    rw [e] at this
    exact this

theorem addSkillTagsLoop_fail (upsertF : Nat → Option StoreErr) (e : StoreErr) :
    ∀ (ts : List String) (j : Nat) (coll : List (String × SkillTag)) (i : Nat),
      (∀ k, k < j → upsertF (i + k) = none) →
      upsertF (i + j) = some e →
      j < ts.length →
      addSkillTagsLoop coll upsertF i ts =
        ((ts.take j).foldl (fun c t => upsertId c t { name := CleanTag t }) coll, some e) := by
  intro ts
  induction ts with
  | nil => intro j coll i _ _ h3; exact absurd h3 (by simp)
  | cons t ts ih =>
    intro j coll i h1 h2 h3
    cases j with
    | zero =>
      rw [addSkillTagsLoop, show upsertF i = some e by simpa using h2]
      rfl
    | succ j =>
      have h0 : upsertF i = none := by simpa using h1 0 (Nat.succ_pos j)
      rw [addSkillTagsLoop, h0]
      simp only [List.take, List.foldl]
      refine ih j _ (i + 1) (fun k hk => ?_) ?_ (by simpa using Nat.lt_of_succ_lt_succ h3)
      · have eq1 : i + (k + 1) = i + 1 + k := by omega
        have := h1 (k + 1) (Nat.succ_lt_succ hk)
        rw [eq1] at this
        exact this
      · have eq2 : i + (j + 1) = i + 1 + j := by omega
        rw [eq2] at h2
        exact h2

/-- C6: AddSkillTags processes the tags in order, upserting for each a
document keyed by the original tag text whose content is the
CleanTag-normalized form; if every upsert succeeds it returns no error
and the collection is the left fold of those upserts, and on the first
failing upsert it returns that error immediately, with exactly the
tags before the failure persisted and none rolled back. -/
theorem AddSkillTags_in_order_abort_on_failure (s : Store)
    (upsertF : Nat → Option StoreErr) (tags : List String) :
    ((∀ k, k < tags.length → upsertF k = none) →
      AddSkillTags s none upsertF tags =
        ({ s with
             skills := tags.foldl (fun c t => upsertId c t { name := CleanTag t }) s.skills },
          none)) ∧
    (∀ j e, (∀ k, k < j → upsertF k = none) → upsertF j = some e → j < tags.length →
      AddSkillTags s none upsertF tags =
        ({ s with
             skills :=
               (tags.take j).foldl (fun c t => upsertId c t { name := CleanTag t }) s.skills },
          some e)) := by
  constructor
  · intro h
    rw [AddSkillTags, addSkillTagsLoop_ok upsertF tags s.skills 0
      (fun k hk => by simpa using h k hk)]
  · intro j e h1 h2 h3
    rw [AddSkillTags, addSkillTagsLoop_fail upsertF e tags j s.skills 0
      (fun k hk => by simpa using h1 k hk) (by simpa using h2) h3]

/-- Fault pattern for the AddSkillTags witness: the second upsert
(index 1) fails, all others succeed. -/
def c6F (k : Nat) : Option StoreErr :=
  if k = 1 then some (StoreErr.errOther 3) else none

/-- Tags for the AddSkillTags witness. -/
def c6Tags : List String := ["Go Lang", "C"]

theorem AddSkillTags_in_order_abort_on_failure_witness :
    AddSkillTags emptyStore none c6F c6Tags =
      ({ emptyStore with skills := [("Go Lang", { name := "go-lang" })] },
        some (StoreErr.errOther 3)) := by
  have h := (AddSkillTags_in_order_abort_on_failure emptyStore c6F c6Tags).2 1
    (StoreErr.errOther 3) (by decide) (by decide) (by decide)
  exact h.trans (by decide)

/-- C5: on an absent configuration document GetOrCreateConfiguration
inserts a newly generated configuration and returns the refetch of it;
an injected insert failure is ignored (the call still refetches, and
the refetch's own not-found error is what the caller sees); and two
sequential fault-free calls both succeed and return the same
session-encryption key. -/
theorem GetOrCreateConfiguration_stable_key (s : Store) (k1 k2 : List Nat) (e : StoreErr) :
    (s.configuration = none →
      GetOrCreateConfiguration s none none none (some e) none none k1
        = (s, NewConfiguration none, some StoreErr.errNotFound) ∧
      GetOrCreateConfiguration s none none none none none none k1
        = ({ s with configuration := some (NewConfiguration (some k1)) },
            NewConfiguration (some k1), none)) ∧
    ((GetOrCreateConfiguration s none none none none none none k1).2.2 = none ∧
     (GetOrCreateConfiguration (GetOrCreateConfiguration s none none none none none none k1).1
        none none none none none none k2).2.2 = none ∧
     (GetOrCreateConfiguration s none none none none none none k1).2.1.sessionEncryptionKey
       = (GetOrCreateConfiguration
            (GetOrCreateConfiguration s none none none none none none k1).1
            none none none none none none k2).2.1.sessionEncryptionKey) := by
  cases hc : s.configuration with
  | none =>
    refine ⟨fun _ => ⟨?_, ?_⟩, ?_⟩ <;>
      simp [GetOrCreateConfiguration, getConfiguration, attemptToCreateConfiguration,
        NewConfiguration, hc]
  | some c =>
    refine ⟨fun hn => absurd hn (by simp), ?_⟩
    simp [GetOrCreateConfiguration, getConfiguration, hc]

theorem GetOrCreateConfiguration_stable_key_witness :
    (GetOrCreateConfiguration emptyStore none none none (some (StoreErr.errOther 5))
        none none [1, 2]
      = (emptyStore, NewConfiguration none, some StoreErr.errNotFound)) ∧
    (GetOrCreateConfiguration emptyStore none none none none none none [1, 2]).2.1.sessionEncryptionKey
      = (GetOrCreateConfiguration
          (GetOrCreateConfiguration emptyStore none none none none none none [1, 2]).1
          none none none none none none [3]).2.1.sessionEncryptionKey := by
  have h := GetOrCreateConfiguration_stable_key emptyStore [1, 2] [3] (StoreErr.errOther 5)
  exact ⟨(h.1 (by decide)).1, h.2.2.2⟩
